import Mathlib

/-!
Verification development for the transaction-lifecycle core of the
irita-sdk-go `modules` package (`base_client.go` and the gRPC client /
per-call credential files).  The Go code is shallowly embedded: pure
functions become Lean functions, network effects are supplied by an
explicit environment (an oracle indexed by per-kind call counters), and
every network interaction is additionally recorded as a ghost event so
that trace properties ("no network call", "partition sizes") can be
stated.  32-bit arithmetic is `Nat` with explicit `% 2 ^ 32`.
-/

namespace IritaSDK

set_option maxRecDepth 16384

/-! ## Error model

`sdk.Error` carries a code and a message; `sdk.Wrap` wraps any error into
an `sdk.Error` keeping its code.  The concrete code values compared in
`base_client.go` are `sdk.WrongSequence`, `sdk.InvalidSequence` and
`sdk.TxTooLarge`; they are modelled as distinct constructors. -/

inductive ErrCode where
  | wrongSequence
  | invalidSequence
  | txTooLarge
  | other (n : Nat)
deriving DecidableEq

structure SdkError where
  code : ErrCode
  msg : String
  wrapped : Bool
deriving DecidableEq

/-- `sdk.Wrap`: wrap an error, keeping its code. -/
def sdkWrap (e : SdkError) : SdkError := { e with wrapped := true }

/-- `sdk.Wrapf`: build a wrapped error from a format string. -/
def sdkWrapf (s : String) : SdkError := ⟨ErrCode.other 0, s, true⟩

/-- `sdk.GetError(sdk.RootCodespace, uint32(sdk.TxTooLarge))` as built in
`SendBatch` when a group exceeds the size limit. -/
def txTooLargeError : SdkError := ⟨ErrCode.txTooLarge, "tx too large", false⟩

/-! ## Constants (base_client.go lines 29-35) -/

def concurrency : Nat := 16
def tryThreshold : Nat := 3
def maxBatch : Nat := 100

/-! ## Messages and transaction options -/

/-- `service.ModuleName`: the route of size-governed messages. -/
def serviceModuleName : String := "service"

/-- A domain message: `Route()` and the outcome of its `ValidateBasic()`
self-check (`none` = valid).  `id` identifies the message so that group
contents can be observed. -/
structure Msg where
  id : Nat
  route : String
  validateBasic : Option SdkError
deriving DecidableEq

/-- `sdk.DecCoins` fee as observed by `prepare`: only `Empty()` and
`IsValid()` are inspected; `tag` identifies the fee value so that the
`ToMinCoin` conversion can distinguish inputs. -/
structure Fee where
  empty : Bool
  valid : Bool
  tag : Nat
deriving DecidableEq

/-- `sdk.BaseTx` transaction options.  `from` is a Lean keyword, hence
`fromAddr`; `gasAdjustment` (a float64 in Go, only ever compared with 0)
is modelled as a natural number. -/
structure BaseTx where
  fromAddr : String
  password : String
  fee : Fee
  gas : Nat
  gasAdjustment : Nat
  memo : String
  mode : String
  simulateAndExecute : Bool
deriving DecidableEq

/-- `sdk.ResultTx` broadcast result. -/
structure ResultTx where
  hash : String
  height : Nat
deriving DecidableEq

def zeroResultTx : ResultTx := ⟨"", 0⟩

/-- Outcome of `buildTx`: the signed bytes are observed only through their
length (`len(txByte)`), plus the context's `Mode()` and `Address()`. -/
structure BuildOut where
  txLen : Nat
  mode : String
  address : String
deriving DecidableEq

/-! ## Ghost events and the network environment -/

/-- Ghost trace events: each network interaction (`buildTx`, the tx-size
parameter query, `broadcastTx`), each cache invalidation
(`removeCache`), and each partitioning of the remaining messages
(`utils.SubArray` at the head of a batch attempt, recording the batch
size used). -/
inductive Event where
  | partitionEv (batch : Nat)
  | buildCall (ids : List Nat)
  | sizeQuery
  | bcastCall
  | invalidate (addr : String)
deriving DecidableEq

def Event.isNet : Event → Bool
  | .buildCall _ => true
  | .sizeQuery => true
  | .bcastCall => true
  | _ => false

def Event.isInvalidate : Event → Bool
  | .invalidate _ => true
  | _ => false

/-- The network calls of a trace. -/
def netCalls (es : List Event) : List Event := es.filter Event.isNet

/-- The cache invalidations of a trace. -/
def invalidations (es : List Event) : List Event := es.filter Event.isInvalidate

/-- The batch sizes recorded at each re-partitioning, in order. -/
def partitionSizes : List Event → List Nat
  | [] => []
  | Event.partitionEv b :: es => b :: partitionSizes es
  | _ :: es => partitionSizes es

/-- Environment supplying the outcome of each network interaction; each
oracle is indexed by the number of calls of its kind already made.
`build` stands for `buildTx` (build + sign), `txSizeLimit` for the
service-params query made inside `ValidateTxSize`, `broadcast` for
`broadcastTx`. -/
structure NetEnv where
  build : Nat → Except SdkError BuildOut
  txSizeLimit : Nat → Except SdkError Nat
  broadcast : Nat → Except SdkError ResultTx

/-! ## The retry combinator -/

structure RetryOut (σ : Type) where
  st : σ
  errs : List SdkError
  result : Option SdkError
deriving DecidableEq

/-- Modelled from the spec: `retry.Do` (third-party `avast/retry-go`,
not part of this repository's sources) — run the attempt up to `n`
total attempts; stop on success; when an attempt fails, retry only if
the predicate accepts the error and attempts remain, invoking the
on-retry hook before the next attempt; otherwise stop, the last
attempt's error being the operation's error.  The errors of all failed
attempts are also returned, as a ghost observation. -/
def retryDo {σ : Type} (fn : σ → σ × Option SdkError) (retryIf : SdkError → Bool)
    (onRetry : σ → SdkError → σ) : Nat → σ → RetryOut σ
  | 0, st => ⟨st, [], none⟩
  | (n+1), st =>
    match fn st with
    | (st', none) => ⟨st', [], none⟩
    | (st', some e) =>
      if 0 < n ∧ retryIf e = true then
        let out := retryDo fn retryIf onRetry n (onRetry st' e)
        ⟨out.st, e :: out.errs, out.result⟩
      else ⟨st', [e], some e⟩

/-- The errors that actually caused a retry: all failed-attempt errors
except, when the whole run failed, the final one. -/
def retriedErrs {σ : Type} (out : RetryOut σ) : List SdkError :=
  if out.result.isSome then out.errs.dropLast else out.errs

/-! ## Partitioning -/

/-- Modelled from the spec: recursion worker for `utils.SubArray`; the
fuel bounds the recursion by the list length (each step with a positive
group size consumes at least one element, so `fuel = l.length` computes
the full partition). -/
def subArrayGo {α : Type} (n : Nat) : Nat → List α → List (List α)
  | _, [] => []
  | 0, _ :: _ => []
  | fuel+1, x :: xs => ((x :: xs).take n) :: subArrayGo n fuel ((x :: xs).drop n)

/-- Modelled from the spec: `utils.SubArray` (not under the provided
sources) — partition a list into consecutive groups of the given size,
preserving order, the last group possibly smaller. -/
def subArray {α : Type} (n : Nat) (l : List α) : List (List α) :=
  if n = 0 then [] else subArrayGo n l.length l

/-! ## SendBatch (base_client.go lines 171-244) -/

/-- Mutable state of a `SendBatch` run: the closure variables `msgs`,
`batch`, `rs`, `address` of the Go code, plus the ghost trace and the
per-kind network call counters. -/
structure BatchSt where
  msgs : List Msg
  batch : Nat
  rs : List ResultTx
  address : String
  events : List Event
  nb : Nat
  nq : Nat
  nc : Nat
deriving DecidableEq

/-- `ValidateTxSize` (base_client.go lines 363-392): when some message
routes to the service module, query the service params for
`TxSizeLimit` (one network call) and report whether the signed size is
within it (`uint64(txSize) > limit` means invalid); otherwise the size
is accepted with no network call.  `GenConn` never fails in the source
(it returns the singleton connection and a nil error).  Returns the
verdict, the events of the call, and the updated size-query counter. -/
def ValidateTxSize (env : NetEnv) (nq : Nat) (txSize : Nat) (msgs : List Msg) :
    Except SdkError Bool × List Event × Nat :=
  if msgs.any (fun m => m.route == serviceModuleName) then
    match env.txSizeLimit nq with
    | .error e => (.error (sdkWrap e), [Event.sizeQuery], nq + 1)
    | .ok limit => (.ok (decide (txSize ≤ limit)), [Event.sizeQuery], nq + 1)
  else (.ok true, [], nq)

/-- The group loop of `SendBatch`'s `retryableFunc` (base_client.go lines
194-222): for each group, in order, build + sign, check the signed size,
then broadcast; on a too-large verdict drop the `i*batch` messages of
the groups already broadcast, halve `batch`, and fail with the
too-large error; on a broadcast failure record the signer address and
fail; successful results are appended to `rs`. -/
def attemptGo (env : NetEnv) (i : Nat) (groups : List (List Msg)) (st : BatchSt) :
    BatchSt × Option SdkError :=
  match groups with
  | [] => (st, none)
  | g :: gs =>
    match env.build st.nb with
    | .error e =>
      ({st with events := st.events ++ [Event.buildCall (g.map Msg.id)], nb := st.nb + 1},
       some e)
    | .ok b =>
      let st1 := {st with events := st.events ++ [Event.buildCall (g.map Msg.id)],
                          nb := st.nb + 1}
      match ValidateTxSize env st1.nq b.txLen g with
      | (.error e, δ, nq') => ({st1 with events := st1.events ++ δ, nq := nq'}, some e)
      | (.ok valid, δ, nq') =>
        let st2 := {st1 with events := st1.events ++ δ, nq := nq'}
        if valid then
          match env.broadcast st2.nc with
          | .error e =>
            ({st2 with address := b.address, events := st2.events ++ [Event.bcastCall],
                       nc := st2.nc + 1}, some e)
          | .ok r =>
            attemptGo env (i + 1) gs
              {st2 with rs := st2.rs ++ [r], events := st2.events ++ [Event.bcastCall],
                        nc := st2.nc + 1}
        else
          ({st2 with msgs := st2.msgs.drop (i * st2.batch), batch := st2.batch / 2},
           some txTooLargeError)

/-- One attempt of `SendBatch`'s `retryableFunc`: partition the current
remaining messages with the current batch size (recorded as a ghost
partition event) and run the group loop from index 0. -/
def sendBatchAttempt (env : NetEnv) (st : BatchSt) : BatchSt × Option SdkError :=
  attemptGo env 0 (subArray st.batch st.msgs)
    {st with events := st.events ++ [Event.partitionEv st.batch]}

/-- `SendBatch`'s `retryIf`: retry on `InvalidSequence` or `TxTooLarge`. -/
def sendBatchRetryIf (e : SdkError) : Bool :=
  decide (e.code = ErrCode.invalidSequence) || decide (e.code = ErrCode.txTooLarge)

/-- `SendBatch`'s `onRetry`: `removeCache(address)` (recorded as a ghost
invalidate event). -/
def sendBatchOnRetry (st : BatchSt) (_ : SdkError) : BatchSt :=
  {st with events := st.events ++ [Event.invalidate st.address]}

/-- The message-validation loop of `SendBatch`: the first
`ValidateBasic` error, if any. -/
def firstValidationError : List Msg → Option SdkError
  | [] => none
  | m :: ms =>
    match m.validateBasic with
    | some e => some e
    | none => firstValidationError ms

def initBatchSt (msgs : List Msg) : BatchSt :=
  ⟨msgs, maxBatch, [], "", [], 0, 0, 0⟩

structure BatchOut where
  rs : List ResultTx
  err : Option SdkError
  run : RetryOut BatchSt
deriving DecidableEq

/-- `SendBatch` (base_client.go lines 171-244): reject an empty list;
return the first `ValidateBasic` failure wrapped, before any network
call; otherwise run the batch attempt under `retry.Do` with
`tryThreshold` attempts and return the accumulated results.  The source
discards `retry.Do`'s error (`_ = retry.Do(...)`) and ends with
`return rs, nil`, so after validation the returned error is always nil;
the run's final state and error are kept as ghost observations. -/
def SendBatch (env : NetEnv) (msgs : List Msg) (baseTx : BaseTx) : BatchOut :=
  if msgs.isEmpty then
    ⟨[], some (sdkWrapf "must have at least one message in list"),
     ⟨initBatchSt msgs, [], none⟩⟩
  else
    match firstValidationError msgs with
    | some e => ⟨[], some (sdkWrap e), ⟨initBatchSt msgs, [], none⟩⟩
    | none =>
      let out := retryDo (sendBatchAttempt env) sendBatchRetryIf sendBatchOnRetry
        tryThreshold (initBatchSt msgs)
      ⟨out.st.rs, none, out⟩

/-! ## BuildAndSend (base_client.go lines 124-169) -/

/-- Mutable state of a `BuildAndSend` run: the closure variables `res`
and `address`, plus the ghost trace and network call counters. -/
structure SendSt where
  address : String
  res : ResultTx
  events : List Event
  nb : Nat
  nc : Nat
deriving DecidableEq

/-- `BuildAndSend`'s `retryableFunc`: build + sign (one network
interaction); on build failure return the error; broadcast; on
broadcast failure record the signer address and return the error;
on success store the result. -/
def buildAndSendAttempt (env : NetEnv) (msg : List Msg) (st : SendSt) :
    SendSt × Option SdkError :=
  match env.build st.nb with
  | .error e =>
    ({st with events := st.events ++ [Event.buildCall (msg.map Msg.id)], nb := st.nb + 1},
     some e)
  | .ok b =>
    let st1 := {st with events := st.events ++ [Event.buildCall (msg.map Msg.id)],
                        nb := st.nb + 1}
    match env.broadcast st1.nc with
    | .error e =>
      ({st1 with res := zeroResultTx, address := b.address,
                 events := st1.events ++ [Event.bcastCall], nc := st1.nc + 1}, some e)
    | .ok r =>
      ({st1 with res := r, events := st1.events ++ [Event.bcastCall], nc := st1.nc + 1},
       none)

/-- `BuildAndSend`'s `retryIfFunc`: retry exactly on `WrongSequence`. -/
def buildAndSendRetryIf (e : SdkError) : Bool := decide (e.code = ErrCode.wrongSequence)

/-- `BuildAndSend`'s `onRetryFunc`: `removeCache(address)`. -/
def buildAndSendOnRetry (st : SendSt) (_ : SdkError) : SendSt :=
  {st with events := st.events ++ [Event.invalidate st.address]}

def initSendSt : SendSt := ⟨"", zeroResultTx, [], 0, 0⟩

structure SendOut where
  res : ResultTx
  err : Option SdkError
  run : RetryOut SendSt
deriving DecidableEq

/-- `BuildAndSend` (base_client.go lines 124-169): run the attempt under
`retry.Do` with `tryThreshold` attempts, retrying only on
`WrongSequence` with a cache invalidation before each retry; a failed
run's error is returned wrapped (`sdk.Wrap(err)`). -/
def BuildAndSend (env : NetEnv) (msg : List Msg) (baseTx : BaseTx) : SendOut :=
  let out := retryDo (buildAndSendAttempt env msg) buildAndSendRetryIf buildAndSendOnRetry
    tryThreshold initSendSt
  match out.result with
  | some e => ⟨out.st.res, some (sdkWrap e), out⟩
  | none => ⟨out.st.res, none, out⟩

/-! ## The sharded locker (base_client.go lines 394-440) -/

def prime32 : Nat := 16777619
def fnvSeed : Nat := 2166136261
def two32 : Nat := 2 ^ 32

/-- One step of `indexFor`'s loop: `hash *= prime32; hash ^= uint32(b)`,
in 32-bit arithmetic. -/
def fnvStep (h b : Nat) : Nat := (h * prime32 % two32) ^^^ (b % two32)

/-- `locker.indexFor`: the 32-bit hash of the key's bytes. -/
def indexFor (key : List Nat) : Nat := key.foldl fnvStep fnvSeed

/-- The locker: only the shard count matters for shard selection. -/
structure Locker where
  size : Nat

def NewLocker (size : Nat) : Locker := ⟨size⟩

/-- `locker.getShard`'s shard index: `uint(indexFor(key)) % uint(size)`. -/
def Locker.getShard (l : Locker) (key : List Nat) : Nat := indexFor key % l.size

/-- Spec-side restatement of the hash for the refinement check: FNV-style
with seed 2166136261 and prime 16777619, `hash = (hash * prime) XOR byte`
over the bytes left-to-right, in 32-bit arithmetic. -/
def fnv1aSpecHash (key : List Nat) : Nat :=
  key.foldl (fun hash byte => ((hash * 16777619) % 2 ^ 32) ^^^ (byte % 2 ^ 32)) 2166136261

/-! ## gRPC credential and dial options (the unnamed source file) -/

structure BSNProjectInfo where
  ProjectId : String
  ProjectKey : String
  ChainAccountAddress : String
deriving DecidableEq

structure Token where
  projectId : String
  projectKey : String
  chainAccountAddr : String
deriving DecidableEq

def projectIdHeader : String := "projectId"
def projectKeyHeader : String := "projectKey"
def chainAccountAddressHeader : String := "chainAccountAddress"

/-- `Token.GetRequestMetadata`: the per-call metadata map (modelled as an
association list in the literal order of the Go map literal). -/
def Token.GetRequestMetadata (t : Token) : List (String × String) :=
  [(projectIdHeader, t.projectId), (projectKeyHeader, t.projectKey),
   (chainAccountAddressHeader, t.chainAccountAddr)]

/-- `Token.RequireTransportSecurity`. -/
def Token.RequireTransportSecurity (_ : Token) : Bool := false

def NewBsnToken (info : BSNProjectInfo) : Token :=
  ⟨info.ProjectId, info.ProjectKey, info.ChainAccountAddress⟩

/-- The dial options set up in `NewGRPCClient`: `grpc.WithInsecure()` and
`grpc.WithPerRPCCredentials(NewBsnToken(info))`. -/
structure DialOptions where
  insecure : Bool
  perRPCCredentials : Token
deriving DecidableEq

def grpcDialOptions (info : BSNProjectInfo) : DialOptions :=
  ⟨true, NewBsnToken info⟩

/-! ## prepare (base_client.go lines 305-361) -/

structure MinFee where
  tag : Nat
deriving DecidableEq

/-- Client-wide configuration fields read by `prepare`. -/
structure ClientConfig where
  chainID : String
  mode : String
  gas : Nat
  gasAdjustment : Nat
  fee : Fee
deriving DecidableEq

/-- The transaction factory as assembled by `prepare`; only the data
fields are modelled (the sign-mode handler, tx config and query
function carry no data relevant to the claims). -/
structure Factory where
  chainID : String
  mode : String
  simulateAndExecute : Bool
  gas : Nat
  gasAdjustment : Nat
  address : String
  accountNumber : Nat
  sequence : Nat
  password : String
  fee : Option MinFee
  memo : String
deriving DecidableEq

/-- Environment for `prepare`: the signer-address lookup, the (cached)
account query, and the `ToMinCoin` fee conversion. -/
structure PrepEnv where
  queryAddress : Except SdkError String
  queryAccount : Except SdkError (Nat × Nat)
  toMinCoin : Fee → Except SdkError MinFee

/-- Outcome of `prepare`: a factory, a returned error, or a panic
(`panic(err)` in the source). -/
inductive PrepareOutcome where
  | ok (f : Factory)
  | err (e : SdkError)
  | panics (e : SdkError)
deriving DecidableEq

/-- `prepare` (base_client.go lines 305-361): resolve the address and
account (errors returned); choose the fee — the caller's when non-empty
and valid (conversion error returned), otherwise the configured default
(conversion error PANICS); then apply the mode/gas/gasAdjustment/memo
overrides when set. -/
def prepare (env : PrepEnv) (cfg : ClientConfig) (baseTx : BaseTx) : PrepareOutcome :=
  let f0 : Factory :=
    ⟨cfg.chainID, cfg.mode, baseTx.simulateAndExecute, cfg.gas, cfg.gasAdjustment,
     "", 0, 0, "", none, ""⟩
  match env.queryAddress with
  | .error e => .err e
  | .ok addr =>
    match env.queryAccount with
    | .error e => .err e
    | .ok (an, seq) =>
      let f2 := {f0 with address := addr, accountNumber := an, sequence := seq,
                         password := baseTx.password}
      let feeRes : PrepareOutcome :=
        if !baseTx.fee.empty && baseTx.fee.valid then
          match env.toMinCoin baseTx.fee with
          | .error e => .err e
          | .ok fees => .ok {f2 with fee := some fees}
        else
          match env.toMinCoin cfg.fee with
          | .error e => .panics e
          | .ok fees => .ok {f2 with fee := some fees}
      match feeRes with
      | .ok f3 =>
        let f4 := if baseTx.mode.length > 0 then {f3 with mode := baseTx.mode} else f3
        let f5 := if baseTx.gas > 0 then {f4 with gas := baseTx.gas} else f4
        let f6 := if baseTx.gasAdjustment > 0 then
            {f5 with gasAdjustment := baseTx.gasAdjustment} else f5
        let f7 := if baseTx.memo.length > 0 then {f6 with memo := baseTx.memo} else f6
        .ok f7
      | o => o

/-! ## Concrete scenarios used as witnesses and counterexamples -/

def btW : BaseTx := ⟨"sender", "pass", ⟨true, false, 0⟩, 0, 0, "", "", false⟩

def msgsW : List Msg := [⟨0, "bank", none⟩]

/-- An environment where every network call succeeds. -/
def envOkW : NetEnv :=
  ⟨fun _ => Except.ok ⟨5, "sync", "addr1"⟩, fun _ => Except.ok 1000,
   fun i => Except.ok ⟨"h", i⟩⟩

def eC1 : SdkError := ⟨ErrCode.other 7, "insufficient funds", false⟩

/-- Environment whose every broadcast fails with a non-retryable error. -/
def envC1 : NetEnv :=
  ⟨fun _ => Except.ok ⟨5, "sync", "addr1"⟩, fun _ => Except.ok 1000,
   fun _ => Except.error eC1⟩

/-- A single size-governed (service-routed) message. -/
def msgsB : List Msg := [⟨0, serviceModuleName, none⟩]

/-- Environment whose first size query reports a limit of 5 for 10-byte
transactions (so the first attempt ends with a retryable too-large
error), whose later size queries accept, and whose every broadcast then
fails with the non-retryable error `eC1` — the non-retryable broadcast
failure happens on the second attempt, after a retry. -/
def envC1b : NetEnv :=
  ⟨fun _ => Except.ok ⟨10, "sync", "addrZ"⟩,
   fun q => if q == 0 then Except.ok 5 else Except.ok 1000,
   fun _ => Except.error eC1⟩

def msgFor (i : Nat) : Msg := ⟨i, serviceModuleName, none⟩

def msgs250 : List Msg := (List.range 250).map msgFor

/-- Environment for the 250-message batch scenario: every build yields a
10-byte transaction; the size limit reported to the second size query
is 5 (so the second group is rejected as too large), all other queries
report 1000; every broadcast succeeds, the i-th one with height i. -/
def envC2 : NetEnv :=
  ⟨fun _ => Except.ok ⟨10, "commit", "addrB"⟩,
   fun q => if q == 1 then Except.ok 5 else Except.ok 1000,
   fun i => Except.ok ⟨"h", i⟩⟩

def eSeq : SdkError := ⟨ErrCode.wrongSequence, "unexpected sequence", false⟩

/-- Environment whose first broadcast fails with a stale-sequence error
and whose later broadcasts succeed. -/
def envC3 : NetEnv :=
  ⟨fun _ => Except.ok ⟨5, "sync", "addrX"⟩, fun _ => Except.ok 1000,
   fun i => if i == 0 then Except.error eSeq else Except.ok ⟨"hh", i⟩⟩

/-- Environment whose every broadcast fails with a stale-sequence error. -/
def envC8 : NetEnv :=
  ⟨fun _ => Except.ok ⟨5, "sync", "addrX"⟩, fun _ => Except.ok 1000,
   fun _ => Except.error eSeq⟩

def eBad : SdkError := ⟨ErrCode.other 3, "invalid message", false⟩

/-- Five messages whose third (and fifth) fail their self-check. -/
def msgsC5 : List Msg :=
  [⟨1, "bank", none⟩, ⟨2, "bank", none⟩, ⟨3, "bank", some eBad⟩,
   ⟨4, "bank", none⟩, ⟨5, "bank", some ⟨ErrCode.other 9, "also bad", false⟩⟩]

def eP : SdkError := ⟨ErrCode.other 11, "unknown denom", false⟩

def mfP : MinFee := ⟨42⟩

/-- A caller-supplied fee that is non-empty but invalid. -/
def feeInvalid : Fee := ⟨false, false, 1⟩

def btP : BaseTx := ⟨"sender", "pass", feeInvalid, 0, 0, "", "", false⟩

def cfgP : ClientConfig := ⟨"chain-1", "commit", 200000, 1, ⟨false, true, 2⟩⟩

/-- Prepare-environment whose fee conversion always fails. -/
def envP : PrepEnv := ⟨Except.ok "addrP", Except.ok (5, 7), fun _ => Except.error eP⟩

/-- Prepare-environment whose fee conversion always succeeds. -/
def envP2 : PrepEnv := ⟨Except.ok "addrP", Except.ok (5, 7), fun _ => Except.ok mfP⟩

/-! ## Helper lemmas -/

theorem partitionSizes_append (a b : List Event) :
    partitionSizes (a ++ b) = partitionSizes a ++ partitionSizes b := by
  induction a with
  | nil => rfl
  | cons e es ih => cases e <;> simp [partitionSizes, ih]

theorem dropLast_cons_ne {α : Type _} (a : α) (l : List α) (h : l ≠ []) :
    (a :: l).dropLast = a :: l.dropLast := by
  cases l with
  | nil => exact absurd rfl h
  | cons b bs => rfl

theorem getLast?_cons_ne {α : Type _} (a : α) (l : List α) (h : l ≠ []) :
    (a :: l).getLast? = l.getLast? := by
  cases l with
  | nil => exact absurd rfl h
  | cons b bs => simp [List.getLast?_cons_cons]

theorem retryDo_errs_le {σ : Type} (fn : σ → σ × Option SdkError) (p : SdkError → Bool)
    (r : σ → SdkError → σ) :
    ∀ (n : Nat) (st : σ), (retryDo fn p r n st).errs.length ≤ n := by
  intro n
  induction n with
  | zero => intro st; simp [retryDo]
  | succ m ih =>
    intro st
    rcases hfs : fn st with ⟨st', e?⟩
    cases e? with
    | none => simp [retryDo, hfs]
    | some e =>
      by_cases hc : 0 < m ∧ p e = true
      · have h := ih (r st' e)
        simp only [retryDo, hfs, if_pos hc]
        simpa using Nat.succ_le_succ h
      · simp [retryDo, hfs, if_neg hc]

theorem retryDo_success_len {σ : Type} (fn : σ → σ × Option SdkError) (p : SdkError → Bool)
    (r : σ → SdkError → σ) :
    ∀ (n : Nat) (st : σ), (retryDo fn p r n st).result = none →
      (retryDo fn p r n st).errs.length + 1 ≤ n ∨ (retryDo fn p r n st).errs = [] := by
  intro n
  induction n with
  | zero => intro st _; right; simp [retryDo]
  | succ m ih =>
    intro st
    rcases hfs : fn st with ⟨st', e?⟩
    cases e? with
    | none => intro _; right; simp [retryDo, hfs]
    | some e =>
      by_cases hc : 0 < m ∧ p e = true
      · simp only [retryDo, hfs, if_pos hc]
        intro hres
        rcases ih (r st' e) hres with h | h
        · left; simpa using Nat.succ_le_succ h
        · left
          simp only [h, List.length_cons, List.length_nil]
          omega
      · simp [retryDo, hfs, if_neg hc]

theorem retryDo_last {σ : Type} (fn : σ → σ × Option SdkError) (p : SdkError → Bool)
    (r : σ → SdkError → σ) :
    ∀ (n : Nat) (st : σ) (e : SdkError), (retryDo fn p r n st).result = some e →
      (retryDo fn p r n st).errs.getLast? = some e := by
  intro n
  induction n with
  | zero => intro st e h; simp [retryDo] at h
  | succ m ih =>
    intro st e
    rcases hfs : fn st with ⟨st', e?⟩
    cases e? with
    | none => simp [retryDo, hfs]
    | some e0 =>
      by_cases hc : 0 < m ∧ p e0 = true
      · simp only [retryDo, hfs, if_pos hc]
        intro hres
        have h := ih (r st' e0) e hres
        have hne : (retryDo fn p r m (r st' e0)).errs ≠ [] := by
          intro hnil
          rw [hnil] at h
          simp at h
        rw [getLast?_cons_ne _ _ hne]
        exact h
      · simp only [retryDo, hfs, if_neg hc]
        intro hres
        simp at hres
        simp [hres]

theorem retryDo_none_of_nil {σ : Type} (fn : σ → σ × Option SdkError) (p : SdkError → Bool)
    (r : σ → SdkError → σ) :
    ∀ (n : Nat) (st : σ), (retryDo fn p r n st).errs = [] →
      (retryDo fn p r n st).result = none := by
  intro n
  induction n with
  | zero => intro st _; simp [retryDo]
  | succ m ih =>
    intro st
    rcases hfs : fn st with ⟨st', e?⟩
    cases e? with
    | none => simp [retryDo, hfs]
    | some e0 =>
      by_cases hc : 0 < m ∧ p e0 = true
      · simp [retryDo, hfs, if_pos hc]
      · simp [retryDo, hfs, if_neg hc]

theorem retriedErrs_cons {σ : Type} (st : σ) (e : SdkError) (out : RetryOut σ)
    (h : out.errs = [] → out.result = none) :
    retriedErrs ⟨st, e :: out.errs, out.result⟩ = e :: retriedErrs out := by
  unfold retriedErrs
  cases hres : out.result with
  | none => simp
  | some e1 =>
    have hne : out.errs ≠ [] := by
      intro hnil
      rw [h hnil] at hres
      exact Option.noConfusion hres
    simp [dropLast_cons_ne _ _ hne]

theorem retryDo_retried {σ : Type} (fn : σ → σ × Option SdkError) (p : SdkError → Bool)
    (r : σ → SdkError → σ) :
    ∀ (n : Nat) (st : σ), ∀ e ∈ retriedErrs (retryDo fn p r n st), p e = true := by
  intro n
  induction n with
  | zero => intro st e h; simp [retryDo, retriedErrs] at h
  | succ m ih =>
    intro st
    rcases hfs : fn st with ⟨st', e?⟩
    cases e? with
    | none => simp [retryDo, hfs, retriedErrs]
    | some e0 =>
      by_cases hc : 0 < m ∧ p e0 = true
      · simp only [retryDo, hfs, if_pos hc]
        have hcons := retriedErrs_cons (retryDo fn p r m (r st' e0)).st e0
          (retryDo fn p r m (r st' e0)) (retryDo_none_of_nil fn p r m (r st' e0))
        intro e he
        rw [hcons] at he
        rcases List.mem_cons.mp he with h | h
        · subst h; exact hc.2
        · exact ih (r st' e0) e h
      · intro e he
        simp only [retryDo, hfs, if_neg hc, retriedErrs] at he
        simp at he

theorem retryDo_mu {σ : Type} (fn : σ → σ × Option SdkError) (p : SdkError → Bool)
    (r : σ → SdkError → σ) (μ : σ → Nat)
    (hfn : ∀ st, μ (fn st).1 = μ st)
    (hr : ∀ st e, μ (r st e) = μ st + 1) :
    ∀ (n : Nat) (st : σ),
      μ (retryDo fn p r n st).st = μ st + (retriedErrs (retryDo fn p r n st)).length := by
  intro n
  induction n with
  | zero => intro st; simp [retryDo, retriedErrs]
  | succ m ih =>
    intro st
    rcases hfs : fn st with ⟨st', e?⟩
    have hst' : μ st' = μ st := by
      have := hfn st
      rw [hfs] at this
      exact this
    cases e? with
    | none => simp [retryDo, hfs, retriedErrs, hst']
    | some e0 =>
      by_cases hc : 0 < m ∧ p e0 = true
      · simp only [retryDo, hfs, if_pos hc]
        have hcons := retriedErrs_cons (retryDo fn p r m (r st' e0)).st e0
          (retryDo fn p r m (r st' e0)) (retryDo_none_of_nil fn p r m (r st' e0))
        rw [hcons]
        have hmu := ih (r st' e0)
        have hstep : μ (r st' e0) = μ st + 1 := by rw [hr, hst']
        simp only [List.length_cons]
        rw [hmu, hstep]
        omega
      · simp [retryDo, hfs, if_neg hc, retriedErrs, hst']

theorem retryDo_maxed {σ : Type} (fn : σ → σ × Option SdkError) (p : SdkError → Bool)
    (r : σ → SdkError → σ) :
    ∀ (n : Nat) (st : σ), (retryDo fn p r n st).errs.length = n → 0 < n →
      (retryDo fn p r n st).result = (retryDo fn p r n st).errs.getLast? := by
  intro n
  induction n with
  | zero => intro st _ h; omega
  | succ m ih =>
    intro st
    rcases hfs : fn st with ⟨st', e?⟩
    cases e? with
    | none => simp [retryDo, hfs]
    | some e0 =>
      by_cases hc : 0 < m ∧ p e0 = true
      · simp only [retryDo, hfs, if_pos hc]
        set out := retryDo fn p r m (r st' e0) with hout
        intro hlen _
        simp only [List.length_cons] at hlen
        have hlen' : out.errs.length = m := by omega
        have hres := ih (r st' e0)
        rw [← hout] at hres
        have h := hres hlen' hc.1
        have hne : out.errs ≠ [] := by
          intro hnil
          rw [hnil] at hlen'
          simp at hlen'
          omega
        rw [getLast?_cons_ne _ _ hne]
        exact h
      · simp [retryDo, hfs, if_neg hc]

theorem retryDo_stop {σ : Type} (fn : σ → σ × Option SdkError) (p : SdkError → Bool)
    (r : σ → SdkError → σ) :
    ∀ (n : Nat) (st : σ) (e : SdkError),
      (retryDo fn p r n st).result = some e → p e = false →
      ∃ st0, fn st0 = ((retryDo fn p r n st).st, some e) := by
  intro n
  induction n with
  | zero => intro st e h _; simp [retryDo] at h
  | succ m ih =>
    intro st e
    rcases hfs : fn st with ⟨st', e?⟩
    cases e? with
    | none => simp [retryDo, hfs]
    | some e0 =>
      by_cases hc : 0 < m ∧ p e0 = true
      · simp only [retryDo, hfs, if_pos hc]
        intro hres hnr
        exact ih (r st' e0) e hres hnr
      · simp only [retryDo, hfs, if_neg hc]
        intro hres hnr
        have he : e0 = e := by simpa using hres
        subst he
        exact ⟨st, by rw [hfs]⟩

theorem ValidateTxSize_events (env : NetEnv) (nq txSize : Nat) (ms : List Msg) :
    (ValidateTxSize env nq txSize ms).2.1 = [] ∨
    (ValidateTxSize env nq txSize ms).2.1 = [Event.sizeQuery] := by
  unfold ValidateTxSize
  split
  · cases h : env.txSizeLimit nq <;> simp [h]
  · simp

theorem attemptGo_spec (env : NetEnv) :
    ∀ (groups : List (List Msg)) (i : Nat) (st : BatchSt),
      partitionSizes (attemptGo env i groups st).1.events = partitionSizes st.events
      ∧ ((attemptGo env i groups st).1.batch = st.batch ∨
         (attemptGo env i groups st).1.batch = st.batch / 2) := by
  intro groups
  induction groups with
  | nil => intro i st; simp [attemptGo]
  | cons g gs ih =>
    intro i st
    cases hb : env.build st.nb with
    | error e =>
      simp [attemptGo, hb, partitionSizes_append, partitionSizes]
    | ok b =>
      rcases hδ : ValidateTxSize env st.nq b.txLen g with ⟨res, δ, nq'⟩
      have hδe := ValidateTxSize_events env st.nq b.txLen g
      rw [hδ] at hδe
      have hδp : partitionSizes δ = [] := by
        rcases hδe with h | h <;> simp only [] at h <;> rw [h] <;>
          simp [partitionSizes]
      simp only [attemptGo, hb, hδ]
      cases res with
      | error e =>
        simp [partitionSizes_append, partitionSizes, hδp]
      | ok valid =>
        cases valid with
        | false =>
          simp [partitionSizes_append, partitionSizes, hδp]
        | true =>
          cases hc : env.broadcast st.nc with
          | error e =>
            simp [hc, partitionSizes_append, partitionSizes, hδp]
          | ok r =>
            simp only [hc]
            exact ⟨(ih (i + 1) _).1.trans
                (by simp [partitionSizes_append, partitionSizes, hδp]),
              (ih (i + 1) _).2⟩

theorem sendBatchAttempt_spec (env : NetEnv) (st : BatchSt) :
    partitionSizes (sendBatchAttempt env st).1.events
      = partitionSizes st.events ++ [st.batch]
    ∧ ((sendBatchAttempt env st).1.batch = st.batch ∨
       (sendBatchAttempt env st).1.batch = st.batch / 2) := by
  have h := attemptGo_spec env (subArray st.batch st.msgs) 0
    {st with events := st.events ++ [Event.partitionEv st.batch]}
  unfold sendBatchAttempt
  refine ⟨h.1.trans ?_, h.2⟩
  simp [partitionSizes_append, partitionSizes]

theorem sendBatchOnRetry_spec (st : BatchSt) (e : SdkError) :
    partitionSizes (sendBatchOnRetry st e).events = partitionSizes st.events
    ∧ (sendBatchOnRetry st e).batch = st.batch := by
  simp [sendBatchOnRetry, partitionSizes_append, partitionSizes]

theorem retrySendBatch_partitions (env : NetEnv) :
    ∀ (n : Nat) (st : BatchSt), 2 ^ n ≤ 2 * st.batch →
      (∀ b ∈ partitionSizes st.events, 1 ≤ b) →
      ∀ b ∈ partitionSizes
          (retryDo (sendBatchAttempt env) sendBatchRetryIf sendBatchOnRetry n st).st.events,
        1 ≤ b := by
  intro n
  induction n with
  | zero =>
    intro st _ h2
    simpa [retryDo] using h2
  | succ m ih =>
    intro st h1 h2
    have hbpos : 1 ≤ st.batch := by
      have : 1 ≤ 2 ^ m := Nat.one_le_two_pow
      have : 2 ^ (m + 1) = 2 * 2 ^ m := by ring
      omega
    rcases hfs : sendBatchAttempt env st with ⟨st', e?⟩
    have hspec := sendBatchAttempt_spec env st
    rw [hfs] at hspec
    have hall' : ∀ b ∈ partitionSizes st'.events, 1 ≤ b := by
      rw [hspec.1]
      intro b hb
      rcases List.mem_append.mp hb with h | h
      · exact h2 b h
      · rw [List.mem_singleton.mp h]
        exact hbpos
    cases e? with
    | none =>
      simpa [retryDo, hfs] using hall'
    | some e =>
      by_cases hc : 0 < m ∧ sendBatchRetryIf e = true
      · simp only [retryDo, hfs, if_pos hc]
        have hon := sendBatchOnRetry_spec st' e
        apply ih (sendBatchOnRetry st' e)
        · rw [hon.2]
          obtain ⟨k, rfl⟩ : ∃ k, m = k + 1 := ⟨m - 1, by omega⟩
          have e1 : 2 ^ (k + 1 + 1) = 4 * 2 ^ k := by ring
          have e2 : 2 ^ (k + 1) = 2 * 2 ^ k := by ring
          rcases hspec.2 with h | h <;> rw [h] <;> omega
        · rw [hon.1]
          exact hall'
      · simpa [retryDo, hfs, if_neg hc] using hall'

theorem buildAndSendAttempt_inv (env : NetEnv) (msg : List Msg) (st : SendSt) :
    (invalidations (buildAndSendAttempt env msg st).1.events).length
      = (invalidations st.events).length := by
  unfold buildAndSendAttempt
  cases hb : env.build st.nb with
  | error e => simp [invalidations, List.filter_append, Event.isInvalidate]
  | ok b =>
    cases hc : env.broadcast st.nc with
    | error e => simp [hc, invalidations, List.filter_append, Event.isInvalidate]
    | ok r => simp [hc, invalidations, List.filter_append, Event.isInvalidate]

theorem buildAndSendOnRetry_inv (st : SendSt) (e : SdkError) :
    (invalidations (buildAndSendOnRetry st e).events).length
      = (invalidations st.events).length + 1 := by
  simp [buildAndSendOnRetry, invalidations, List.filter_append, Event.isInvalidate]

theorem BuildAndSend_run_eq (env : NetEnv) (msg : List Msg) (baseTx : BaseTx) :
    (BuildAndSend env msg baseTx).run
      = retryDo (buildAndSendAttempt env msg) buildAndSendRetryIf buildAndSendOnRetry
          tryThreshold initSendSt := by
  unfold BuildAndSend
  cases h : (retryDo (buildAndSendAttempt env msg) buildAndSendRetryIf buildAndSendOnRetry
      tryThreshold initSendSt).result <;> simp [h]

theorem SendBatch_run_eq (env : NetEnv) (msgs : List Msg) (baseTx : BaseTx)
    (hne : msgs.isEmpty = false) (hv : firstValidationError msgs = none) :
    (SendBatch env msgs baseTx).run
      = retryDo (sendBatchAttempt env) sendBatchRetryIf sendBatchOnRetry
          tryThreshold (initBatchSt msgs)
    ∧ (SendBatch env msgs baseTx).err = none
    ∧ (SendBatch env msgs baseTx).rs
      = (retryDo (sendBatchAttempt env) sendBatchRetryIf sendBatchOnRetry
          tryThreshold (initBatchSt msgs)).st.rs := by
  simp [SendBatch, hne, hv]

/-! ## Claims -/

/-- C4: `SendBatch` called with an empty message list returns the
"must have at least one message in list" error, returns no results, and
performs no network interaction (no build, size query, or broadcast). -/
theorem SendBatch_empty_rejected (env : NetEnv) (baseTx : BaseTx) :
    (SendBatch env [] baseTx).err
      = some (sdkWrapf "must have at least one message in list")
    ∧ (SendBatch env [] baseTx).rs = []
    ∧ netCalls (SendBatch env [] baseTx).run.st.events = [] :=
  ⟨rfl, rfl, rfl⟩

/-- C5: when some message of the list fails its `ValidateBasic`
self-check, `SendBatch` returns the first such validation error
(wrapped), returns no results, and issues no network call for any
message of the list. -/
theorem SendBatch_validation_first (env : NetEnv) (msgs : List Msg) (baseTx : BaseTx)
    (e : SdkError) (h : firstValidationError msgs = some e) :
    (SendBatch env msgs baseTx).err = some (sdkWrap e)
    ∧ (SendBatch env msgs baseTx).rs = []
    ∧ netCalls (SendBatch env msgs baseTx).run.st.events = [] := by
  have hne : msgs.isEmpty = false := by
    cases msgs with
    | nil => simp [firstValidationError] at h
    | cons a l => rfl
  simp [SendBatch, hne, h, netCalls, initBatchSt]

/-- Witness for C5: message 3 of 5 fails self-validation; no network
call is made for any of the 5 messages and the first error returns. -/
theorem SendBatch_validation_first_witness :
    firstValidationError msgsC5 = some eBad
    ∧ ((SendBatch envOkW msgsC5 btW).err = some (sdkWrap eBad)
       ∧ (SendBatch envOkW msgsC5 btW).rs = []
       ∧ netCalls (SendBatch envOkW msgsC5 btW).run.st.events = []) :=
  ⟨rfl, SendBatch_validation_first envOkW msgsC5 btW eBad rfl⟩

/-- C9: the gRPC per-call credential built from the project
configuration returns exactly the three metadata fields (project id,
project key, chain account address) unchanged, reports that transport
security is not required, and the channel is dialed insecure with that
credential attached. -/
theorem Token_metadata_spec (info : BSNProjectInfo) :
    (NewBsnToken info).GetRequestMetadata
      = [(projectIdHeader, info.ProjectId), (projectKeyHeader, info.ProjectKey),
         (chainAccountAddressHeader, info.ChainAccountAddress)]
    ∧ (NewBsnToken info).RequireTransportSecurity = false
    ∧ (grpcDialOptions info).insecure = true
    ∧ (grpcDialOptions info).perRPCCredentials = NewBsnToken info :=
  ⟨rfl, rfl, rfl, rfl⟩

/-- C6: `indexFor` computes exactly the spec's hash (seed 2166136261,
prime 16777619, multiply-then-XOR over the bytes left-to-right, 32-bit
arithmetic), its value is below `2 ^ 32`, the locker's shard index is
that hash modulo the fixed shard count 16, and the function is
deterministic: equal keys yield equal shard indices. -/
theorem indexFor_fnv_spec (key : List Nat) :
    indexFor key = fnv1aSpecHash key
    ∧ indexFor key < 2 ^ 32
    ∧ (NewLocker concurrency).getShard key = fnv1aSpecHash key % 16
    ∧ (∀ key2 : List Nat, key = key2 →
        (NewLocker concurrency).getShard key = (NewLocker concurrency).getShard key2) := by
  have h1 : indexFor key = fnv1aSpecHash key := rfl
  have hb : ∀ (l : List Nat) (a : Nat), a < 2 ^ 32 → l.foldl fnvStep a < 2 ^ 32 := by
    intro l
    induction l with
    | nil => intro a h; exact h
    | cons x xs ih =>
      intro a _
      apply ih
      unfold fnvStep
      apply Nat.xor_lt_two_pow (n := 32)
      · exact Nat.mod_lt _ (by norm_num [two32])
      · exact Nat.mod_lt _ (by norm_num [two32])
  refine ⟨h1, hb key fnvSeed (by norm_num [fnvSeed]), ?_, ?_⟩
  · simp only [Locker.getShard, NewLocker, concurrency, h1]
  · intro key2 h
    rw [h]

/-- Witness for C6, at the key "foo" (bytes 102, 111, 111). -/
theorem indexFor_fnv_spec_witness :
    ([102, 111, 111] : List Nat) = [102, 111, 111]
    ∧ (NewLocker concurrency).getShard [102, 111, 111]
      = (NewLocker concurrency).getShard [102, 111, 111] :=
  ⟨rfl, (indexFor_fnv_spec [102, 111, 111]).2.2.2 [102, 111, 111] rfl⟩

/-- C3: `BuildAndSend`'s retry policy — at most 3 failed attempts (and
at most 2 when the run succeeds, so 3 total attempts at most); every
error that caused a retry carries the wrong-sequence code (any other
error ends the run immediately, no later attempt existing); exactly one
cache invalidation precedes each retry; and a failed run returns its
last attempt's error wrapped. -/
theorem BuildAndSend_retry_policy (env : NetEnv) (msg : List Msg) (baseTx : BaseTx) :
    (BuildAndSend env msg baseTx).run.errs.length ≤ tryThreshold
    ∧ ((BuildAndSend env msg baseTx).run.result = none →
        (BuildAndSend env msg baseTx).run.errs.length + 1 ≤ tryThreshold)
    ∧ (∀ e ∈ retriedErrs (BuildAndSend env msg baseTx).run,
        e.code = ErrCode.wrongSequence)
    ∧ (invalidations (BuildAndSend env msg baseTx).run.st.events).length
        = (retriedErrs (BuildAndSend env msg baseTx).run).length
    ∧ (∀ e, (BuildAndSend env msg baseTx).run.result = some e →
        (BuildAndSend env msg baseTx).err = some (sdkWrap e)) := by
  have hrun := BuildAndSend_run_eq env msg baseTx
  refine ⟨?_, ?_, ?_, ?_, ?_⟩
  · rw [hrun]
    exact retryDo_errs_le _ _ _ _ _
  · rw [hrun]
    intro h
    rcases retryDo_success_len (buildAndSendAttempt env msg) buildAndSendRetryIf
      buildAndSendOnRetry tryThreshold initSendSt h with h2 | h2
    · exact h2
    · rw [h2]
      norm_num [tryThreshold]
  · rw [hrun]
    intro e he
    have h := retryDo_retried (buildAndSendAttempt env msg) buildAndSendRetryIf
      buildAndSendOnRetry tryThreshold initSendSt e he
    simpa [buildAndSendRetryIf] using h
  · rw [hrun]
    have h := retryDo_mu (buildAndSendAttempt env msg) buildAndSendRetryIf
      buildAndSendOnRetry (fun st => (invalidations st.events).length)
      (buildAndSendAttempt_inv env msg) buildAndSendOnRetry_inv tryThreshold initSendSt
    simpa [initSendSt, invalidations] using h
  · intro e h
    have h' : (retryDo (buildAndSendAttempt env msg) buildAndSendRetryIf
        buildAndSendOnRetry tryThreshold initSendSt).result = some e := by
      rw [← hrun]
      exact h
    simp [BuildAndSend, h']

/-- Witness for C3: a first broadcast failing with the wrong-sequence
code followed by a successful retry — one failed attempt, one
invalidation, success within the ceiling. -/
theorem BuildAndSend_retry_policy_witness :
    (BuildAndSend envC3 msgsW btW).run.errs.length ≤ tryThreshold
    ∧ (BuildAndSend envC3 msgsW btW).run.errs.length + 1 ≤ tryThreshold
    ∧ (∀ e ∈ retriedErrs (BuildAndSend envC3 msgsW btW).run,
        e.code = ErrCode.wrongSequence)
    ∧ (invalidations (BuildAndSend envC3 msgsW btW).run.st.events).length
        = (retriedErrs (BuildAndSend envC3 msgsW btW).run).length :=
  have h := BuildAndSend_retry_policy envC3 msgsW btW
  ⟨h.1, h.2.1 (by decide), h.2.2.1, h.2.2.2.1⟩

/-- C8: when all `tryThreshold = 3` attempts fail with stale-sequence
errors, `BuildAndSend` returns precisely the third attempt's error,
wrapped — not an aggregation and not a timeout. -/
theorem BuildAndSend_returns_last_error (env : NetEnv) (msg : List Msg) (baseTx : BaseTx)
    (e0 e1 e2 : SdkError)
    (hc0 : e0.code = ErrCode.wrongSequence) (hc1 : e1.code = ErrCode.wrongSequence)
    (hc2 : e2.code = ErrCode.wrongSequence)
    (h : (BuildAndSend env msg baseTx).run.errs = [e0, e1, e2]) :
    (BuildAndSend env msg baseTx).run.result = some e2
    ∧ (BuildAndSend env msg baseTx).err = some (sdkWrap e2) := by
  have hrun := BuildAndSend_run_eq env msg baseTx
  rw [hrun] at h
  have hlen : (retryDo (buildAndSendAttempt env msg) buildAndSendRetryIf
      buildAndSendOnRetry tryThreshold initSendSt).errs.length = tryThreshold := by
    rw [h]
    rfl
  have hres := retryDo_maxed (buildAndSendAttempt env msg) buildAndSendRetryIf
    buildAndSendOnRetry tryThreshold initSendSt hlen (by norm_num [tryThreshold])
  rw [h] at hres
  have hres2 : (retryDo (buildAndSendAttempt env msg) buildAndSendRetryIf
      buildAndSendOnRetry tryThreshold initSendSt).result = some e2 := by
    rw [hres]
    simp
  refine ⟨?_, ?_⟩
  · rw [hrun]
    exact hres2
  · simp [BuildAndSend, hres2]

/-- Witness for C8: every broadcast fails with the stale-sequence error
`eSeq`; the run's error list is three copies of it and the returned
error is the third one wrapped. -/
theorem BuildAndSend_returns_last_error_witness :
    (BuildAndSend envC8 msgsW btW).run.result = some eSeq
    ∧ (BuildAndSend envC8 msgsW btW).err = some (sdkWrap eSeq) :=
  BuildAndSend_returns_last_error envC8 msgsW btW eSeq eSeq eSeq rfl rfl rfl (by decide)

/-- C7: at every re-partitioning of the remaining messages during a
`SendBatch` run, the batch size is at least 1 (starting from 100 and
halving at most once per attempt within the 3-attempt ceiling, it never
reaches 0). -/
theorem SendBatch_partition_floor (env : NetEnv) (msgs : List Msg) (baseTx : BaseTx) :
    ∀ b ∈ partitionSizes (SendBatch env msgs baseTx).run.st.events, 1 ≤ b := by
  cases hne : msgs.isEmpty with
  | true => simp [SendBatch, hne, initBatchSt, partitionSizes]
  | false =>
    cases hv : firstValidationError msgs with
    | some e => simp [SendBatch, hne, hv, initBatchSt, partitionSizes]
    | none =>
      rw [(SendBatch_run_eq env msgs baseTx hne hv).1]
      exact retrySendBatch_partitions env tryThreshold (initBatchSt msgs)
        (by norm_num [initBatchSt, maxBatch, tryThreshold])
        (by simp [initBatchSt, partitionSizes])

/-- Witness for C7: a run with a re-partitioning event of size 100. -/
theorem SendBatch_partition_floor_witness :
    1 ≤ 100 ∧ 100 ∈ partitionSizes (SendBatch envOkW msgsW btW).run.st.events :=
  ⟨SendBatch_partition_floor envOkW msgsW btW 100 (by decide), by decide⟩

/-- Counterexample to C1 as stated: a non-empty, fully valid message
list whose first group's broadcast fails with an error that is neither
a stale-sequence nor a too-large error (the run's ghost result records
that failure, and the trace shows the broadcast happened), yet
`SendBatch` returns a nil error — the source discards `retry.Do`'s
error and ends with `return rs, nil`. -/
theorem SendBatch_error_discarded_cex :
    msgsW ≠ []
    ∧ firstValidationError msgsW = none
    ∧ (SendBatch envC1 msgsW btW).run.result = some eC1
    ∧ sendBatchRetryIf eC1 = false
    ∧ (SendBatch envC1 msgsW btW).run.st.events
        = [Event.partitionEv 100, Event.buildCall [0], Event.bcastCall]
    ∧ (SendBatch envC1 msgsW btW).err = none :=
  ⟨by decide, rfl, rfl, rfl, rfl, rfl⟩

/-- C1 (amended): for a non-empty, fully valid message list, whenever
some attempt of the `SendBatch` run — the first or any retry attempt —
fails with an error that `SendBatch` does not retry (neither
stale-sequence nor too-large), the batch stops immediately: the final
state is exactly the output state of the attempt that failed with that
error (so nothing, no retry, no invalidation, no further network call,
happened after it), the results of the groups already broadcast at that
moment are returned — but the returned error is nil: the broadcast
error is discarded (observable only in the ghost run result), not
returned to the caller. -/
theorem SendBatch_abort_keeps_partial (env : NetEnv) (msgs : List Msg) (baseTx : BaseTx)
    (e : SdkError) (hne : msgs.isEmpty = false)
    (hv : firstValidationError msgs = none)
    (hres : (SendBatch env msgs baseTx).run.result = some e)
    (hnr : sendBatchRetryIf e = false) :
    (SendBatch env msgs baseTx).err = none
    ∧ (SendBatch env msgs baseTx).rs = (SendBatch env msgs baseTx).run.st.rs
    ∧ ∃ st0, sendBatchAttempt env st0 = ((SendBatch env msgs baseTx).run.st, some e)
        ∧ (SendBatch env msgs baseTx).rs = (sendBatchAttempt env st0).1.rs := by
  obtain ⟨hrun, herr, hrs⟩ := SendBatch_run_eq env msgs baseTx hne hv
  refine ⟨herr, ?_, ?_⟩
  · rw [hrs, hrun]
  · rw [hrun] at hres
    obtain ⟨st0, h0⟩ := retryDo_stop (sendBatchAttempt env) sendBatchRetryIf
      sendBatchOnRetry tryThreshold (initBatchSt msgs) e hres hnr
    refine ⟨st0, ?_, ?_⟩
    · rw [hrun]
      exact h0
    · rw [hrs, h0]

/-- Witness for the amended C1: the non-retryable broadcast failure
happens on the second attempt, after a retryable too-large first
attempt — the run still stops at that attempt with a nil error. -/
theorem SendBatch_abort_keeps_partial_witness :
    (SendBatch envC1b msgsB btW).err = none
    ∧ (SendBatch envC1b msgsB btW).rs = (SendBatch envC1b msgsB btW).run.st.rs
    ∧ ∃ st0, sendBatchAttempt envC1b st0
          = ((SendBatch envC1b msgsB btW).run.st, some eC1)
        ∧ (SendBatch envC1b msgsB btW).rs = (sendBatchAttempt envC1b st0).1.rs :=
  SendBatch_abort_keeps_partial envC1b msgsB btW eC1 rfl rfl rfl rfl

/-- Counterexample to C2 as stated: in the 250-message scenario with
the second group rejected as too large, the remaining work kept by the
code is messages 101-250 (ids 100..249 — the rejected second group is
retained, only the first, already-broadcast group is dropped), not
messages 151-250; re-partitioned at batch size 50 it forms three
groups, not two. -/
theorem SendBatch_regroup_cex :
    (SendBatch envC2 msgs250 btW).run.st.msgs = (List.range' 100 150).map msgFor
    ∧ ¬ (SendBatch envC2 msgs250 btW).run.st.msgs = (List.range' 150 100).map msgFor
    ∧ (subArray 50 ((List.range' 100 150).map msgFor)).length = 3 :=
  ⟨by decide, by decide, by decide⟩

/-- C2 (amended): with 250 messages and initial batch size 100 the
partition is 3 groups of sizes 100, 100, 50 in original order; when the
second group is rejected as too large, the batch size becomes 50 and
the remaining work is exactly messages 101-250 (the rejected group
included), re-grouped into three groups of size 50; the
already-broadcast first group's result is retained at the head of the
final result sequence. -/
theorem SendBatch_regroup_amended :
    (subArray maxBatch msgs250).map List.length = [100, 100, 50]
    ∧ partitionSizes (SendBatch envC2 msgs250 btW).run.st.events = [100, 50]
    ∧ (SendBatch envC2 msgs250 btW).run.st.batch = 50
    ∧ (SendBatch envC2 msgs250 btW).run.st.msgs = (List.range' 100 150).map msgFor
    ∧ (subArray 50 ((List.range' 100 150).map msgFor)).map List.length = [50, 50, 50]
    ∧ (SendBatch envC2 msgs250 btW).rs
        = [⟨"h", 0⟩, ⟨"h", 1⟩, ⟨"h", 2⟩, ⟨"h", 3⟩]
    ∧ (SendBatch envC2 msgs250 btW).rs.head? = some ⟨"h", 0⟩ :=
  ⟨by decide, rfl, rfl, by decide, by decide, rfl, rfl⟩

/-- C10: in `prepare`, when the caller-supplied fee is empty or invalid,
the configured default fee is used instead: if its conversion fails the
operation panics (it does not return the error), and if it succeeds the
build proceeds with the default fee — a caller-supplied invalid fee is
silently replaced, not rejected. -/
theorem prepare_fee_fallback (env : PrepEnv) (cfg : ClientConfig) (baseTx : BaseTx)
    (addr : String) (an seq : Nat)
    (ha : env.queryAddress = Except.ok addr)
    (hacc : env.queryAccount = Except.ok (an, seq))
    (hf : baseTx.fee.empty = true ∨ baseTx.fee.valid = false) :
    (∀ e, env.toMinCoin cfg.fee = Except.error e →
      prepare env cfg baseTx = PrepareOutcome.panics e)
    ∧ (∀ mf, env.toMinCoin cfg.fee = Except.ok mf →
        ∃ f, prepare env cfg baseTx = PrepareOutcome.ok f ∧ f.fee = some mf) := by
  have hcond : (!baseTx.fee.empty && baseTx.fee.valid) = false := by
    rcases hf with h | h <;> simp [h]
  constructor
  · intro e he
    simp [prepare, ha, hacc, hcond, he]
  · intro mf hm
    simp only [prepare, ha, hacc, hcond, hm, Bool.false_eq_true, if_false]
    refine ⟨_, rfl, ?_⟩
    split <;> split <;> split <;> split <;> rfl

/-- Witness for C10: with a non-empty but invalid caller fee, a failing
default-fee conversion panics, and a succeeding one yields a factory
carrying the converted default fee. -/
theorem prepare_fee_fallback_witness :
    prepare envP cfgP btP = PrepareOutcome.panics eP
    ∧ ∃ f, prepare envP2 cfgP btP = PrepareOutcome.ok f ∧ f.fee = some mfP :=
  ⟨(prepare_fee_fallback envP cfgP btP "addrP" 5 7 rfl rfl (Or.inr rfl)).1 eP rfl,
   (prepare_fee_fallback envP2 cfgP btP "addrP" 5 7 rfl rfl (Or.inr rfl)).2 mfP rfl⟩

end IritaSDK
